import Mathlib

/-!
Shallow embedding of the opentransport Go client library
(request-execution pipeline: config validation, request building and
validation, retrying transport executor, response decoders, and the
iso-8601 optional-timestamp codec), together with theorems settling the
specification claims about it.

Go conventions mirrored here:
* a Go `error` value is modelled by `GoErr`; `fmt.Errorf("...: %w", err)`
  wrapping is the `GoErr.wrap` constructor, a leaf error is `GoErr.msg`;
* a Go `([]byte, error)` pair where both components may be nil is modelled
  by `Option (List Nat) × Option GoErr` (a byte is a `Nat < 256`);
* functions returning `(T, error)` with exactly one of the two set are
  modelled by `Except GoErr T`.
-/

set_option maxHeartbeats 1000000

/-- Model of a Go error value: either a leaf message (`errors.New` /
`fmt.Errorf` without `%w`) or a wrapping error (`fmt.Errorf("...: %w", e)`,
keeping the text before the wrapped error). -/
inductive GoErr where
  | msg (s : String)
  | wrap (s : String) (inner : GoErr)
deriving DecidableEq, Repr

/-- True exactly on wrapping errors (produced with the `%w` verb). -/
def GoErr.isWrap : GoErr → Bool
  | .msg _ => false
  | .wrap _ _ => true

/-- Model of a parsed `net/url.URL` restricted to the fields the client
reads: `Scheme`, `Host` and `Path`. -/
structure URL where
  scheme : String
  host : String
  path : String
deriving DecidableEq, Repr

/-- Model of `clientConfig` from the Go source: the api URL (a pointer,
hence `Option URL`), the user agent, and the retry policy. -/
structure clientConfig where
  apiUrl : Option URL
  userAgent : String
  maxRetry : Int
  maxRetryPause : Int
deriving DecidableEq, Repr

/-- The default user agent string (`DefaultUserAgent`). -/
def DefaultUserAgent : String := "Golang OpenTransport Client/v1.0"

/-- The default retry count (`DefaultMaxRetry`). -/
def DefaultMaxRetry : Int := 3

/-- The default pause in seconds between retries (`DefaultRetryPause`). -/
def DefaultRetryPause : Int := 5

/-- Direct translation of `validRetry(attempts, pause int) (bool, error)`:
rejects `attempts < 0 || attempts > 10` and `pause < 1`. -/
def validRetry (attempts : Int) (pause : Int) : Except GoErr Bool :=
  if attempts < 0 ∨ attempts > 10 then
    .error (.msg "please provide a max retry between 0 and 10")
  else if pause < 1 then
    .error (.msg "please provide a max retry pause more than 1 seconds")
  else
    .ok true

/-- Direct translation of `validClientConfig(cfg *clientConfig)`: the nil
pointer is `none`; an empty user agent is replaced by the default (the Go
function mutates the config in place and returns it); the api URL must be
present with non-empty host and scheme; the retry policy must validate. -/
def validClientConfig (cfg : Option clientConfig) : Except GoErr clientConfig :=
  match cfg with
  | none => .error (.msg "client config cannot be nil")
  | some c =>
    let c := if c.userAgent.length = 0 then
      { c with userAgent := DefaultUserAgent } else c
    match c.apiUrl with
    | none => .error (.msg "please provide a api url")
    | some u =>
      if u.host.length = 0 then
        .error (.msg "please provide a valid api url host")
      else if u.scheme.length = 0 then
        .error (.msg "please provide a valid api url scheme")
      else
        match validRetry c.maxRetry c.maxRetryPause with
        | .error e => .error e
        | .ok _ => .ok c

/-- Model of the Go suffix test `strings.HasSuffix(path, "/")` plus the
append in `newClientWithConfig`: the api URL path gets a trailing slash. -/
def ensureTrailingSlash (p : String) : String :=
  if p.endsWith "/" then p else p ++ "/"

/-- Translation of `newClientWithConfig` restricted to the configuration it
produces (the live loggers and the service records carry no further data
relevant to the claims): the config is validated, then the api URL path is
normalised to end in a slash. A `.ok` result models a live client. -/
def newClientWithConfig (cfg : Option clientConfig) : Except GoErr clientConfig :=
  match validClientConfig cfg with
  | .error e => .error (.wrap "opentransport: invalid client config" e)
  | .ok c =>
    .ok { c with apiUrl := c.apiUrl.map (fun u => { u with path := ensureTrailingSlash u.path }) }

/-- Translation of `Client.MaxRetry(attempts, pause int) error`: on invalid
input the wrapped validation error is returned and the config is left
untouched; otherwise both retry fields are updated. The Go method mutates
the client; here the (possibly updated) config is returned alongside the
error. -/
def MaxRetry (cfg : clientConfig) (attempts : Int) (pause : Int) :
    clientConfig × Option GoErr :=
  match validRetry attempts pause with
  | .error e => (cfg, some (.wrap "failed to configure retry options" e))
  | .ok _ => ({ cfg with maxRetry := attempts, maxRetryPause := pause }, none)

/-- Model of a Go `context.Context` as far as the client observes it:
either the background context substituted by `NewRequest` or a
caller-supplied one, identified by an opaque tag. -/
inductive GoContext where
  | background
  | custom (id : Nat)
deriving DecidableEq, Repr

/-- Model of an outbound `http.Request` restricted to the fields this
library reads or writes: method, body presence (`Body != nil`), the URL
scheme, the request `Host` field (set from the URL host by
`http.NewRequest`), the full URL string, the header list (empty when no
header was ever set on the request) and the bound context. -/
structure Request where
  method : String
  hasBody : Bool
  urlScheme : String
  host : String
  urlString : String
  headers : List (String × String)
  ctx : GoContext
deriving DecidableEq, Repr

/-- Direct translation of `validRequest(req *http.Request) (bool, error)`:
method must be exactly GET, the body absent, the URL scheme non-empty and
the request host non-empty, checked in that order. -/
def validRequest (req : Request) : Except GoErr Bool :=
  if req.method ≠ "GET" then
    .error (.msg ("the request has an invalid http method " ++ req.method ++
      ". (only GET is allowed)"))
  else if req.hasBody then
    .error (.msg "the request should not contain a body")
  else if req.urlScheme.length = 0 then
    .error (.msg "a valid protocol scheme should be defined")
  else if req.host.length = 0 then
    .error (.msg "a valid host should be defined")
  else
    .ok true

/-- Renders a URL the way `fmt.Sprintf("%s", u)` does for the URLs this
client holds (scheme://host/path). -/
def urlToString (u : URL) : String := u.scheme ++ "://" ++ u.host ++ u.path

/-- Model of the failure condition of `net/url.Parse` as invoked through
`http.NewRequestWithContext`: parsing rejects exactly the strings holding
an ASCII control byte (below space, or DEL). -/
def hasCtlByte (s : String) : Bool :=
  s.data.any (fun c => c.toNat < 32 ∨ c.toNat = 127)

/-- Translation of `Client.NewRequest(ctx, path)`. `baseUrl` is the
dereferenced `c.cfg.apiUrl` of the live client (never nil by the
construction invariant). A nil context (`none`) is replaced by
`context.Background()`. The request URL is the plain string concatenation
`fmt.Sprintf("%s%s", c.cfg.apiUrl, path)`, which
`http.NewRequestWithContext` re-parses; the re-parse fails exactly on
control bytes, and for the query paths this library produces it returns
the base URL's scheme and host. No header is ever set on the request. -/
def NewRequest (baseUrl : URL) (ctx : Option GoContext) (path : String) :
    Except GoErr Request :=
  let boundCtx := match ctx with
    | none => GoContext.background
    | some c => c
  let reqUrl := urlToString baseUrl ++ path
  if hasCtlByte reqUrl then
    .error (.wrap "failed to create new request"
      (.msg "net/url: invalid control character in URL"))
  else
    .ok { method := "GET", hasBody := false, urlScheme := baseUrl.scheme,
          host := baseUrl.host, urlString := reqUrl, headers := [],
          ctx := boundCtx }

/-- Outcome of one exchange through the underlying `http.Client.Do`: a
transport-level error, a non-nil response with a status code and body
bytes, or the degenerate nil-response-nil-error pair the code guards
against. -/
inductive HttpOutcome where
  | transportErr (e : GoErr)
  | response (status : Nat) (body : List Nat)
  | nilResponse
deriving DecidableEq, Repr

/-- Translation of the closure passed to `retry` inside `Client.Do`:
classifies one `HttpOutcome` into the Go pair `([]byte, error)` (either
component may be nil). Status `>= 500` is an error, status `== 200`
returns the body, any other status returns the nil pair. -/
def doAttempt (o : HttpOutcome) : Option (List Nat) × Option GoErr :=
  match o with
  | .transportErr e => (none, some (.wrap "failed to proceed http request" e))
  | .response s body =>
      if s ≥ 500 then
        (none, some (.msg ("remote server responded with an error: " ++ toString s)))
      else if s = 200 then
        (some body, none)
      else
        (none, none)
  | .nilResponse => (none, some (.msg "server response of the http request is empty"))

/-- Translation of `Client.retry(attempts, sleep, f)`: run `f`; on an
error, decrement `attempts` and, while the decremented budget is still
positive, sleep and recurse. `f` is indexed by the attempt number (the Go
closure observes successive exchanges); the result carries the Go return
pair, the total number of invocations of `f`, and the list of sleep
durations performed between consecutive attempts. -/
def retry (f : Nat → Option (List Nat) × Option GoErr) (attempts : Int)
    (sleep : Int) (idx : Nat) :
    (Option (List Nat) × Option GoErr) × Nat × List Int :=
  let r := f idx
  if r.2.isSome ∧ attempts - 1 > 0 then
    let rest := retry f (attempts - 1) sleep (idx + 1)
    (rest.1, rest.2.1 + 1, sleep :: rest.2.2)
  else
    (r, 1, [])
termination_by attempts.toNat
decreasing_by omega

/-- Translation of `Client.Do(req)`: validate the request (failing with a
wrapped error and performing no attempt), then run the retrying exchange
with the configured budget and pause; a surviving error is replaced by the
transport error naming `c.cfg.maxRetry`; otherwise the (possibly nil) body
is returned. The `Nat` is the number of HTTP attempts performed and the
`List Int` the pauses slept between consecutive attempts, in seconds. -/
def Do (cfg : clientConfig) (req : Request) (net : Nat → HttpOutcome) :
    Except GoErr (Option (List Nat)) × Nat × List Int :=
  match validRequest req with
  | .error e => (.error (.wrap "opentransport: invalid http request" e), 0, [])
  | .ok _ =>
    let out := retry (fun i => doAttempt (net i)) cfg.maxRetry cfg.maxRetryPause 0
    match out.1.2 with
    | some _ =>
        (.error (.msg ("failed to perform the http request after " ++
          toString cfg.maxRetry ++ " retries")), out.2)
    | none => (.ok out.1.1, out.2)

/-- True when the second list is an initial segment of the first. -/
def leadsWith : List Char → List Char → Bool
  | _, [] => true
  | [], _ :: _ => false
  | c :: cs, d :: ds => (c = d) && leadsWith cs ds

/-- True when `sub` occurs contiguously inside `s`. -/
def containsSub : List Char → List Char → Bool
  | s, sub =>
    if leadsWith s sub then true
    else
      match s with
      | [] => false
      | _ :: rest => containsSub rest sub

/-- Model of `strings.Contains(s, sub)`. -/
def goContains (s sub : String) : Bool := containsSub s.data sub.data

/-- Model of `strings.Trim(s, "\"")`: strip all leading and trailing
double-quote characters. -/
def goTrimQuotes (s : String) : String :=
  ⟨((s.data.dropWhile (· = '"')).reverse.dropWhile (· = '"')).reverse⟩

/-- Model of a `time.Time` value at the granularity the library uses
(whole seconds; the API never serves sub-second precision): broken-down
civil fields plus the zone offset in minutes. The zero value of
`time.Time` is `zeroGoTime` below. -/
structure GoTime where
  year : Nat
  month : Nat
  day : Nat
  hour : Nat
  minute : Nat
  second : Nat
  offsetMin : Int
deriving DecidableEq, Repr

/-- The zero `time.Time`: January 1, year 1, 00:00:00 UTC. -/
def zeroGoTime : GoTime :=
  { year := 1, month := 1, day := 1, hour := 0, minute := 0, second := 0,
    offsetMin := 0 }

/-- Decimal digit test on a character. -/
def isDigitChar (c : Char) : Bool := '0' ≤ c ∧ c ≤ '9'

/-- Numeric value of a decimal digit character. -/
def digitVal (c : Char) : Nat := c.toNat - 48

/-- Consume exactly `k` decimal digits from the front of `cs`, returning
their value and the rest; fails when fewer than `k` digits lead `cs`. -/
def takeDigits (cs : List Char) (k : Nat) : Option (Nat × List Char) :=
  let pre := cs.take k
  if pre.length = k ∧ pre.all isDigitChar then
    some (pre.foldl (fun a c => a * 10 + digitVal c) 0, cs.drop k)
  else
    none

/-- Consume one expected literal character. -/
def expectChar (cs : List Char) (c : Char) : Option (List Char) :=
  match cs with
  | c2 :: rest => if c2 = c then some rest else none
  | [] => none

/-- Number of days in a month, Gregorian rules (as `time.Parse` validates
the day field, leap years included). -/
def daysInMonth (y m : Nat) : Nat :=
  if m = 2 then
    if y % 4 = 0 ∧ (y % 100 ≠ 0 ∨ y % 400 = 0) then 29 else 28
  else if m = 4 ∨ m = 6 ∨ m = 9 ∨ m = 11 then 30
  else 31

/-- Parse the zone suffix of the layout `Z0700`: either the literal `Z`
(UTC) or a sign followed by exactly four digits, no colon — exactly how
`time.Parse` treats `stdISO8601TZ`. Returns the offset in minutes. -/
def parseZone (cs : List Char) : Option (Int × List Char) :=
  match cs with
  | 'Z' :: rest => some (0, rest)
  | c :: rest =>
    if c = '+' ∨ c = '-' then
      match takeDigits rest 2 with
      | some (hh, r1) =>
        match takeDigits r1 2 with
        | some (mm, r2) =>
          some ((if c = '-' then -1 else 1) * ((hh : Int) * 60 + (mm : Int)), r2)
        | none => none
      | none => none
    else
      none
  | [] => none

/-- Field-level model of `time.Parse("2006-01-02T15:04:05Z0700", s)`:
fixed-width numeric fields with literal separators, the `Z0700` zone, no
trailing input, and the range validation `time.Parse` performs on month,
day (month- and leap-aware), hour, minute and second. -/
def parseIsoFields (cs : List Char) : Option GoTime := do
  let (y, cs) ← takeDigits cs 4
  let cs ← expectChar cs '-'
  let (mo, cs) ← takeDigits cs 2
  let cs ← expectChar cs '-'
  let (d, cs) ← takeDigits cs 2
  let cs ← expectChar cs 'T'
  let (h, cs) ← takeDigits cs 2
  let cs ← expectChar cs ':'
  let (mi, cs) ← takeDigits cs 2
  let cs ← expectChar cs ':'
  let (sec, cs) ← takeDigits cs 2
  let (off, cs) ← parseZone cs
  if cs = [] ∧ 1 ≤ mo ∧ mo ≤ 12 ∧ 1 ≤ d ∧ d ≤ daysInMonth y mo ∧
      h ≤ 23 ∧ mi ≤ 59 ∧ sec ≤ 59 then
    some { year := y, month := mo, day := d, hour := h, minute := mi,
           second := sec, offsetMin := off }
  else
    none

/-- Model of `time.Parse("2006-01-02T15:04:05Z0700", s)` as an
error-or-value result. -/
def goParseIso8601 (s : String) : Except GoErr GoTime :=
  match parseIsoFields s.data with
  | some t => .ok t
  | none =>
    .error (.msg ("parsing time " ++ s ++
      " as 2006-01-02T15:04:05Z0700: cannot parse"))

/-- Direct translation of `isoDate.UnmarshalJSON(raw []byte) error`: when
the raw text contains the substring `null` (note: `strings.Contains`, not
an equality test) or is empty, the receiver is left at the zero time and
no error is returned; otherwise the quotes are trimmed and the string is
parsed with the layout `2006-01-02T15:04:05Z0700`, the receiver taking
the parsed value on success. The returned `GoTime` is the receiver's
final value (it starts as the zero time, JSON decoding allocating a
zeroed struct). -/
def isoDateUnmarshalJSON (raw : String) : Except GoErr GoTime :=
  if goContains raw "null" ∨ raw.length = 0 then
    .ok zeroGoTime
  else
    match goParseIso8601 (goTrimQuotes raw) with
    | .error e => .error e
    | .ok t => .ok t

/-- Two-character zero-padded decimal rendering, as a character list. -/
def pad2L (n : Nat) : List Char :=
  [Char.ofNat (48 + n / 10 % 10), Char.ofNat (48 + n % 10)]

/-- Four-character zero-padded decimal rendering, as a character list. -/
def pad4L (n : Nat) : List Char :=
  [Char.ofNat (48 + n / 1000 % 10), Char.ofNat (48 + n / 100 % 10),
   Char.ofNat (48 + n / 10 % 10), Char.ofNat (48 + n % 10)]

/-- Zone suffix of `time.Time.MarshalJSON` output (RFC 3339): `Z` for a
zero offset, otherwise a sign and colon-separated hours and minutes. -/
def marshalZoneL (off : Int) : List Char :=
  if off = 0 then ['Z']
  else
    (if off < 0 then '-' else '+') ::
      (pad2L (off.natAbs / 60) ++ [':'] ++ pad2L (off.natAbs % 60))

/-- Body of the RFC 3339 rendering of a time (everything between the two
double quotes). -/
def marshalBodyL (t : GoTime) : List Char :=
  pad4L t.year ++ ['-'] ++ pad2L t.month ++ ['-'] ++ pad2L t.day ++
    ['T'] ++ pad2L t.hour ++ [':'] ++ pad2L t.minute ++ [':'] ++
    pad2L t.second ++ marshalZoneL t.offsetMin

/-- Model of `json.Marshal` on a `time.Time` with whole-second precision:
the RFC 3339 rendering (colon in the zone offset) surrounded by double
quotes, as produced by `time.Time.MarshalJSON`. -/
def goMarshalTime (t : GoTime) : String :=
  ⟨'"' :: (marshalBodyL t ++ ['"'])⟩

/-- Translation of `ConnectionService.parseResponse(raw []byte)`: an empty
buffer is rejected before any JSON work; otherwise the (stdlib)
`json.Unmarshal`, abstracted as the `unmarshal` argument, runs, its error
being wrapped. -/
def ConnectionService.parseResponse {T : Type}
    (unmarshal : List Nat → Except GoErr T) (raw : List Nat) : Except GoErr T :=
  if raw.length = 0 then
    .error (.msg "response buffer is empty")
  else
    match unmarshal raw with
    | .error e => .error (.wrap "failed to parse response" e)
    | .ok v => .ok v

/-- Translation of `StationboardService.parseResponse(raw []byte)`: same
shape as the connection decoder, wrapping the `json.Unmarshal` error. -/
def StationboardService.parseResponse {T : Type}
    (unmarshal : List Nat → Except GoErr T) (raw : List Nat) : Except GoErr T :=
  if raw.length = 0 then
    .error (.msg "response buffer is empty")
  else
    match unmarshal raw with
    | .error e => .error (.wrap "failed to parse response" e)
    | .ok v => .ok v

/-- Translation of `LocationService.parseResponse(raw []byte)`: an empty
buffer is rejected first; otherwise `json.Unmarshal` runs and its error is
returned as-is (`return &locResp, err` — unlike the other two decoders,
with no wrapping `fmt.Errorf`). -/
def LocationService.parseResponse {T : Type}
    (unmarshal : List Nat → Except GoErr T) (raw : List Nat) : Except GoErr T :=
  if raw.length = 0 then
    .error (.msg "response buffer is empty")
  else
    match unmarshal raw with
    | .error e => .error e
    | .ok v => .ok v

/-- UTF-8 encoding of one character, as byte values (model of Go's string
byte representation). -/
def utf8BytesOfChar (c : Char) : List Nat :=
  let n := c.toNat
  if n < 128 then [n]
  else if n < 2048 then [192 + n / 64, 128 + n % 64]
  else if n < 65536 then [224 + n / 4096, 128 + n / 64 % 64, 128 + n % 64]
  else [240 + n / 262144, 128 + n / 4096 % 64, 128 + n / 64 % 64, 128 + n % 64]

/-- Byte sequence of a string (Go `len` and `range`-by-byte semantics). -/
def strBytes (s : String) : List Nat := (s.data.map utf8BytesOfChar).flatten

/-- ASCII letter-or-digit test on a byte. -/
def isAlphaNumByte (b : Nat) : Bool :=
  (65 ≤ b ∧ b ≤ 90) ∨ (97 ≤ b ∧ b ≤ 122) ∨ (48 ≤ b ∧ b ≤ 57)

/-- Model of `net/url.shouldEscape(c, encodePathSegment)`, the predicate
behind `url.PathEscape`: alphanumerics, `-._~` and `$&+:=@` stay, every
other byte (including `/;,?` and all non-ASCII) is percent-escaped. -/
def shouldEscapePathSeg (b : Nat) : Bool :=
  if isAlphaNumByte b then false
  else if b = 45 ∨ b = 95 ∨ b = 46 ∨ b = 126 then false
  else if b = 36 ∨ b = 38 ∨ b = 43 ∨ b = 58 ∨ b = 61 ∨ b = 64 then false
  else true

/-- Upper-case hexadecimal digit. -/
def hexDigitUpper (n : Nat) : Char :=
  if n < 10 then Char.ofNat (48 + n) else Char.ofNat (55 + n)

/-- Percent-escape of one byte. -/
def escapeByte (b : Nat) : List Char :=
  ['%', hexDigitUpper (b / 16), hexDigitUpper (b % 16)]

/-- Model of `url.PathEscape`. -/
def pathEscape (s : String) : String :=
  ⟨((strBytes s).map (fun b =>
    if shouldEscapePathSeg b then escapeByte b else [Char.ofNat b])).flatten⟩

/-- Digit-fold of a character list. -/
def digitsToNat (cs : List Char) : Nat :=
  cs.foldl (fun a c => a * 10 + digitVal c) 0

/-- Success condition of `strconv.Atoi(s)` (64-bit `int`): an optional
sign, then one or more decimal digits, the value within the `int64`
range. -/
def goAtoiOk (s : String) : Bool :=
  match s.data with
  | [] => false
  | c :: rest =>
    let signed := c = '+' ∨ c = '-'
    let digits := if signed then rest else c :: rest
    digits ≠ [] && digits.all isDigitChar &&
      (if c = '-' then digitsToNat digits ≤ 2 ^ 63
       else digitsToNat digits ≤ 2 ^ 63 - 1)

/-- Direct translation of `isId(v string)`: more than five bytes and
`strconv.Atoi` succeeds. -/
def isId (v : String) : Bool :=
  decide ((strBytes v).length > 5) && goAtoiOk v

/-- Transportation values are plain strings on the wire (`train`, `bus`,
`tram`, `ship`, `cableway`). -/
abbrev Transportation := String

/-- Translation of `convSlice([]Transportation) []string`. -/
def convSlice (list : List Transportation) : List String :=
  list.map (fun s => s)

/-- Loop body of `convListParam`, accumulating the rendered parameter
list; `i` is the running index used in the error message. -/
def convListParamAux (name : String) :
    List String → Nat → String → Except GoErr String
  | [], _, acc => .ok acc
  | v :: rest, i, acc =>
    if v.length = 0 then
      .error (.msg (name ++ " filter at index " ++ toString i ++
        " cannot be empty"))
    else
      convListParamAux name rest (i + 1)
        (acc ++ "&" ++ name ++ "[]=" ++ pathEscape v)

/-- Direct translation of `convListParam(values []string, name string)`:
repeated `&name[]=value` pairs with path-escaped values; an empty element
aborts with an indexed error. -/
def convListParam (values : List String) (name : String) : Except GoErr String :=
  convListParamAux name values 0 ""

/-- Request options for stationboard queries (`StbOpts`). -/
structure StbOpts where
  transportations : List Transportation
  dateTime : GoTime
  arrival : Bool
  limit : Int
deriving DecidableEq, Repr

/-- Translation of `StationboardService.formatDate`: a zero date is
rejected; otherwise the `2006-01-02 15:04` rendering. -/
def StationboardService.formatDate (date : GoTime) : Except GoErr String :=
  if date = zeroGoTime then
    .error (.msg "provided date is zero: please provide a valid time.Time as date")
  else
    .ok ⟨pad4L date.year ++ ['-'] ++ pad2L date.month ++ ['-'] ++
      pad2L date.day ++ [' '] ++ pad2L date.hour ++ [':'] ++ pad2L date.minute⟩

/-- Direct translation of `StationboardService.buildUrlPath(name, opts)`:
empty names are rejected, the transportations list is rendered, the query
key is `id` for identifier-shaped names and `station` otherwise, the
direction is `arrival`/`departure` by `opts.Arrival`, and the date must be
non-zero. -/
def StationboardService.buildUrlPath (name : String) (opts : StbOpts) :
    Except GoErr String :=
  if name.length = 0 then
    .error (.msg "no location name or id to search for")
  else
    match convListParam (convSlice opts.transportations) "transportations" with
    | .error e => .error e
    | .ok transportations =>
      let stationAttr := if isId name then "id" else "station"
      let directionType := if opts.arrival then "arrival" else "departure"
      match StationboardService.formatDate opts.dateTime with
      | .error e => .error (.wrap "failed to build url path" e)
      | .ok date =>
        .ok ("stationboard?" ++ stationAttr ++ "=" ++ pathEscape name ++
          "&limit=" ++ toString opts.limit ++ "&type=" ++
          pathEscape directionType ++ "&datetime=" ++ pathEscape date ++
          transportations)

/-! Helper lemmas shared by the claim theorems. -/

/-- A string has length zero exactly when it is empty. -/
theorem strLen_zero_iff (s : String) : s.length = 0 ↔ s = "" := by
  cases s with
  | mk data =>
    constructor
    · intro h
      have : data = [] := by
        simpa [String.length] using h
      simp [this]
    · intro h
      rw [h]
      rfl

/-- When the first attempt yields no error, `retry` stops after exactly one
attempt with no pause. -/
theorem retry_first_ok (f : Nat → Option (List Nat) × Option GoErr)
    (a : Int) (s : Int) (i : Nat) (h : (f i).2 = none) :
    retry f a s i = (f i, 1, []) := by
  rw [retry]
  simp [h]

/-- When every attempt errs, `retry` performs `max attempts 1` attempts in
total, sleeping the fixed pause between each consecutive pair, and returns
the last attempt's pair. -/
theorem retry_all_err (f : Nat → Option (List Nat) × Option GoErr)
    (h : ∀ j, (f j).2.isSome = true) (a : Int) (s : Int) (i : Nat) :
    retry f a s i =
      (f (i + (max a.toNat 1 - 1)), max a.toNat 1,
        List.replicate (max a.toNat 1 - 1) s) := by
  by_cases ha : a - 1 > 0
  · rw [retry]
    have h2 := retry_all_err f h (a - 1) s (i + 1)
    rw [if_pos ⟨h i, ha⟩, h2]
    have hmax : max a.toNat 1 = (a - 1).toNat + 1 := by omega
    have hmax2 : max (a - 1).toNat 1 = (a - 1).toNat := by omega
    rw [hmax, hmax2]
    obtain ⟨m, hm⟩ : ∃ m, (a - 1).toNat = m + 1 := ⟨(a - 1).toNat - 1, by omega⟩
    have hidx : i + 1 + (m + 1 - 1) = i + (m + 1 + 1 - 1) := by omega
    simp only [hm, hidx, Nat.add_sub_cancel, List.replicate_succ]
    have hfin : i + 1 + m = i + (m + 1) := by omega
    rw [hfin]
  · rw [retry]
    have hng : ¬((f i).2.isSome = true ∧ a - 1 > 0) := fun hc => ha hc.2
    rw [if_neg hng]
    have hmax : max a.toNat 1 = 1 := by omega
    rw [hmax]
    simp
termination_by a.toNat
decreasing_by omega

/-- A 5xx status classifies as a retryable error in `Do`'s closure. -/
theorem doAttempt_server_err (s : Nat) (b : List Nat) (h : 500 ≤ s) :
    doAttempt (.response s b) =
      (none, some (.msg ("remote server responded with an error: " ++ toString s))) := by
  simp [doAttempt, h]

/-- A status other than 200 and below 500 classifies as the nil pair. -/
theorem doAttempt_pass (s : Nat) (b : List Nat) (h1 : s < 500) (h2 : s ≠ 200) :
    doAttempt (.response s b) = (none, none) := by
  simp [doAttempt, Nat.not_le.mpr h1, h2]

/-! Concrete fixtures used by witnesses and counterexamples. -/

/-- A base URL as a live client holds it. -/
def exampleBase : URL := { scheme := "https", host := "example.com", path := "/v1/" }

/-- A valid client configuration with a retry budget of 2 and a 1 second
pause. -/
def exampleConfig : clientConfig :=
  { apiUrl := some exampleBase, userAgent := "ua", maxRetry := 2,
    maxRetryPause := 1 }

/-- A structurally valid GET request. -/
def exampleRequest : Request :=
  { method := "GET", hasBody := false, urlScheme := "https",
    host := "example.com", urlString := "https://example.com/v1/",
    headers := [], ctx := .background }

/-- The same request with a POST method (invalid for this client). -/
def examplePostRequest : Request := { exampleRequest with method := "POST" }

/-- A server answering 500 to every attempt. -/
def serverAlways500 : Nat → HttpOutcome := fun _ => .response 500 []

/-- A server answering 404 to every attempt. -/
def serverAlways404 : Nat → HttpOutcome := fun _ => .response 404 []

/-! Claim theorems. -/

/-- C1 (counterexample): with `maxRetry = 2` and a server that always
answers 500, `Do` performs exactly 2 HTTP attempts — not the 3 the claim
states — before failing. -/
theorem C1_two_attempts_not_three :
    (Do exampleConfig exampleRequest serverAlways500).2.1 = 2 ∧ (2 : Nat) ≠ 3 := by
  constructor
  · unfold Do
    rw [show validRequest exampleRequest = .ok true from rfl]
    rw [retry_all_err _ (fun j => by simp [serverAlways500, doAttempt])]
    simp [serverAlways500, doAttempt, exampleConfig]
  · decide

/-- C1 (amended): with `maxRetryAttempts = 2` and every attempt answering
HTTP 500, `Do` performs exactly 2 total HTTP attempts (the initial one
plus 1 retry), the consecutive pair separated by one configured pause, and
fails with a transport error whose text reports the configured retry count
2 — which also equals the number of attempts actually made. -/
theorem C1_exhaustion_two_attempts (cfg : clientConfig) (req : Request)
    (net : Nat → HttpOutcome)
    (hval : validRequest req = .ok true) (hretry : cfg.maxRetry = 2)
    (h500 : ∀ i, ∃ b, net i = .response 500 b) :
    Do cfg req net =
      (.error (.msg "failed to perform the http request after 2 retries"), 2,
        [cfg.maxRetryPause]) := by
  unfold Do
  rw [hval, hretry]
  have hsome : ∀ j, ((fun i => doAttempt (net i)) j).2.isSome = true := by
    intro j
    obtain ⟨b, hb⟩ := h500 j
    simp [hb, doAttempt]
  rw [retry_all_err _ hsome]
  have hmax : max (2 : Int).toNat 1 = 2 := by decide
  obtain ⟨b1, hb1⟩ := h500 1
  simp only [hmax]
  norm_num
  simp [hb1, doAttempt]
  rfl

/-- C1 (witness): the amended theorem applied to the concrete fixtures. -/
theorem C1_exhaustion_witness :
    Do exampleConfig exampleRequest serverAlways500 =
      (.error (.msg "failed to perform the http request after 2 retries"), 2, [1]) :=
  C1_exhaustion_two_attempts exampleConfig exampleRequest serverAlways500
    rfl rfl (fun _ => ⟨[], rfl⟩)

/-- C2: a response status that is neither 200 nor at least 500 (404, say)
makes `Do` return the nil byte slice (zero length) with no error, after
exactly one attempt and no retry pause. -/
theorem C2_passthrough (cfg : clientConfig) (req : Request)
    (net : Nat → HttpOutcome) (s : Nat) (body : List Nat)
    (hval : validRequest req = .ok true) (h0 : net 0 = .response s body)
    (h200 : s ≠ 200) (h500 : s < 500) :
    Do cfg req net = (.ok none, 1, []) := by
  unfold Do
  rw [hval]
  have hpass : doAttempt (net 0) = (none, none) := by
    rw [h0]
    exact doAttempt_pass s body h500 h200
  rw [retry_first_ok _ _ _ _ (by simp [hpass])]
  simp [hpass]

/-- C2 (witness): the theorem applied to a server answering 404. -/
theorem C2_passthrough_witness :
    Do exampleConfig exampleRequest serverAlways404 = (.ok none, 1, []) :=
  C2_passthrough exampleConfig exampleRequest serverAlways404 404 []
    rfl rfl (by decide) (by decide)

/-- C6: `validRequest` succeeds exactly when the method is GET, the body
is absent, the URL scheme is non-empty and the host is non-empty; each
violation produces the error naming the rule that failed (checked in the
source's order). -/
theorem C6_validRequest_characterisation (req : Request) :
    (validRequest req = .ok true ↔
      (req.method = "GET" ∧ req.hasBody = false ∧ req.urlScheme ≠ "" ∧
        req.host ≠ "")) ∧
    (req.method ≠ "GET" →
      validRequest req = .error (.msg ("the request has an invalid http method " ++
        req.method ++ ". (only GET is allowed)"))) ∧
    (req.method = "GET" → req.hasBody = true →
      validRequest req = .error (.msg "the request should not contain a body")) ∧
    (req.method = "GET" → req.hasBody = false → req.urlScheme = "" →
      validRequest req = .error (.msg "a valid protocol scheme should be defined")) ∧
    (req.method = "GET" → req.hasBody = false → req.urlScheme ≠ "" →
      req.host = "" →
      validRequest req = .error (.msg "a valid host should be defined")) := by
  unfold validRequest
  split_ifs with h1 h2 h3 h4 <;> simp_all [strLen_zero_iff]

/-- C6 (witness): the characterisation applied to the valid GET fixture. -/
theorem C6_validRequest_witness : validRequest exampleRequest = .ok true :=
  ((C6_validRequest_characterisation exampleRequest).1).2
    ⟨rfl, rfl, by decide, by decide⟩

/-- C7: a request failing structural validation makes `Do` fail at once
with the wrapped validation error, with zero HTTP attempts and zero retry
pauses. -/
theorem C7_invalid_request_no_attempt (cfg : clientConfig) (req : Request)
    (net : Nat → HttpOutcome) (e : GoErr)
    (h : validRequest req = .error e) :
    Do cfg req net =
      (.error (.wrap "opentransport: invalid http request" e), 0, []) := by
  unfold Do
  rw [h]

/-- C7 (witness): the theorem applied to a POST request. -/
theorem C7_invalid_request_witness :
    Do exampleConfig examplePostRequest serverAlways500 =
      (.error (.wrap "opentransport: invalid http request"
        (.msg "the request has an invalid http method POST. (only GET is allowed)")),
        0, []) :=
  C7_invalid_request_no_attempt exampleConfig examplePostRequest
    serverAlways500 _ rfl

/-- Valid retry parameters are exactly those `validRetry` accepts. -/
theorem validRetry_err_of (a p : Int) (h : a < 0 ∨ a > 10 ∨ p < 1) :
    ∃ e, validRetry a p = .error e := by
  unfold validRetry
  split_ifs with h1 h2
  · exact ⟨_, rfl⟩
  · exact ⟨_, rfl⟩
  · exact absurd h (by omega)

/-- A config violating any of the documented rules fails validation. -/
theorem validClientConfig_some_err (c : clientConfig)
    (h : c.apiUrl = none ∨
      (∃ u, c.apiUrl = some u ∧ (u.scheme = "" ∨ u.host = "")) ∨
      c.maxRetry < 0 ∨ c.maxRetry > 10 ∨ c.maxRetryPause < 1) :
    (validClientConfig (some c)).isOk = false := by
  by_cases hua : c.userAgent.length = 0 <;>
  · rcases h with hnil | ⟨u, hu, hbad⟩ | hr1 | hr2 | hr3
    · simp [validClientConfig, hua, hnil, Except.isOk, Except.toBool]
    · by_cases hh : u.host.length = 0
      · simp [validClientConfig, hua, hu, hh, Except.isOk, Except.toBool]
      · have hs : u.scheme.length = 0 := by
          rcases hbad with hbs | hbh
          · simp [hbs]
          · exact absurd (by simp [hbh] : u.host.length = 0) hh
        simp [validClientConfig, hua, hu, hh, hs, Except.isOk, Except.toBool]
    all_goals {
      cases hau : c.apiUrl with
      | none => simp [validClientConfig, hua, hau, Except.isOk, Except.toBool]
      | some u =>
        by_cases hh : u.host.length = 0
        · simp [validClientConfig, hua, hau, hh, Except.isOk, Except.toBool]
        · by_cases hs : u.scheme.length = 0
          · simp [validClientConfig, hua, hau, hh, hs, Except.isOk, Except.toBool]
          · obtain ⟨e, he⟩ := validRetry_err_of c.maxRetry c.maxRetryPause (by omega)
            simp [validClientConfig, hua, hau, hh, hs, he, Except.isOk, Except.toBool]
    }

/-- Construction inherits any validation failure. -/
theorem newClientWithConfig_err_of_invalid (cfg : Option clientConfig)
    (h : (validClientConfig cfg).isOk = false) :
    (newClientWithConfig cfg).isOk = false := by
  unfold newClientWithConfig
  cases hv : validClientConfig cfg with
  | error e => simp [Except.isOk, Except.toBool]
  | ok c => rw [hv] at h; simp [Except.isOk, Except.toBool] at h

/-- C5: construction fails (no live client) for every invalid config —
nil config, missing api URL, empty scheme, empty host, retry attempts
outside `[0,10]` or pause below 1 — and `MaxRetry` rejects out-of-range
parameters with an error while leaving the retry configuration (indeed the
whole config) unchanged. -/
theorem C5_config_invariant :
    (∀ cfg : Option clientConfig,
      (cfg = none ∨
        ∃ c, cfg = some c ∧
          (c.apiUrl = none ∨
            (∃ u, c.apiUrl = some u ∧ (u.scheme = "" ∨ u.host = "")) ∨
            c.maxRetry < 0 ∨ c.maxRetry > 10 ∨ c.maxRetryPause < 1)) →
      (newClientWithConfig cfg).isOk = false) ∧
    (∀ (c : clientConfig) (a p : Int), (a < 0 ∨ a > 10 ∨ p < 1) →
      (MaxRetry c a p).1 = c ∧ (MaxRetry c a p).2.isSome = true) := by
  constructor
  · intro cfg h
    rcases h with rfl | ⟨c, rfl, hc⟩
    · simp [newClientWithConfig, validClientConfig, Except.isOk, Except.toBool]
    · exact newClientWithConfig_err_of_invalid _ (validClientConfig_some_err c hc)
  · intro c a p h
    obtain ⟨e, he⟩ := validRetry_err_of a p h
    unfold MaxRetry
    rw [he]
    exact ⟨rfl, rfl⟩

/-- C5 (witness): nil config construction fails; `MaxRetry 30 1` is
rejected leaving the fixture config unchanged. -/
theorem C5_config_witness :
    (newClientWithConfig none).isOk = false ∧
    (MaxRetry exampleConfig 30 1).1 = exampleConfig ∧
    (MaxRetry exampleConfig 30 1).2.isSome = true :=
  ⟨C5_config_invariant.1 none (Or.inl rfl),
   C5_config_invariant.2 exampleConfig 30 1 (by omega)⟩

/-- A `json.Unmarshal` stand-in that always reports a syntax error. -/
def exampleUnmarshalErr : List Nat → Except GoErr Unit :=
  fun _ => .error (.msg "invalid character")

/-- The error component of a decode result (the zero value on success). -/
def errOf {T : Type} : Except GoErr T → GoErr
  | .error e => e
  | .ok _ => .msg ""

/-- C8 (counterexample): on malformed JSON the location decoder returns
the underlying syntax error bare — not wrapped in a parse error — while
the connection decoder does wrap it. -/
theorem C8_location_no_wrap :
    LocationService.parseResponse exampleUnmarshalErr [123] =
      .error (.msg "invalid character") ∧
    GoErr.isWrap (errOf (LocationService.parseResponse exampleUnmarshalErr [123])) = false ∧
    GoErr.isWrap (errOf (ConnectionService.parseResponse exampleUnmarshalErr [123])) = true :=
  ⟨rfl, rfl, rfl⟩

/-- C8 (amended): all three decoders fail on zero-length input with the
empty-payload error before any JSON parsing runs (the result is the same
for every unmarshaller); on non-empty input whose unmarshalling fails, the
connection and stationboard decoders wrap the syntax error in a parse
error, while the location decoder returns the syntax error unwrapped. -/
theorem C8_decoders (T : Type) (u : List Nat → Except GoErr T)
    (raw : List Nat) (e : GoErr) :
    (∀ u2 : List Nat → Except GoErr T,
      ConnectionService.parseResponse u2 [] = .error (.msg "response buffer is empty") ∧
      StationboardService.parseResponse u2 [] = .error (.msg "response buffer is empty") ∧
      LocationService.parseResponse u2 [] = .error (.msg "response buffer is empty")) ∧
    (raw ≠ [] → u raw = .error e →
      ConnectionService.parseResponse u raw = .error (.wrap "failed to parse response" e) ∧
      StationboardService.parseResponse u raw = .error (.wrap "failed to parse response" e) ∧
      LocationService.parseResponse u raw = .error e) := by
  constructor
  · intro u2
    exact ⟨rfl, rfl, rfl⟩
  · intro hne hu
    have hlen : raw.length ≠ 0 := by
      simpa using fun h => hne (List.length_eq_zero.mp h)
    simp only [ConnectionService.parseResponse, StationboardService.parseResponse,
      LocationService.parseResponse, if_neg hlen, hu]
    exact ⟨trivial, trivial, trivial⟩

/-- C8 (witness): the amended theorem applied to the always-failing
unmarshaller on a one-byte payload. -/
theorem C8_decoders_witness :
    ConnectionService.parseResponse exampleUnmarshalErr [123] =
      .error (.wrap "failed to parse response" (.msg "invalid character")) ∧
    StationboardService.parseResponse exampleUnmarshalErr [123] =
      .error (.wrap "failed to parse response" (.msg "invalid character")) ∧
    LocationService.parseResponse exampleUnmarshalErr [123] =
      .error (.msg "invalid character") :=
  (C8_decoders Unit exampleUnmarshalErr [123] (.msg "invalid character")).2
    (by decide) rfl

/-- C4: evaluating the request builder shows the GET method, absent body,
concatenated URL, and the background-context substitution for a nil
context — but an empty header list: the configured user agent is never
attached to the request (the config field's own documentation says it
"will be used for http requests", and the spec requires it; the code omits
it). -/
theorem C4_no_user_agent_attached :
    NewRequest exampleBase (some (.custom 7)) "locations?query=Bern" =
      .ok { method := "GET", hasBody := false, urlScheme := "https",
            host := "example.com",
            urlString := "https://example.com/v1/locations?query=Bern",
            headers := [], ctx := .custom 7 } ∧
    NewRequest exampleBase none "locations?query=Bern" =
      .ok { method := "GET", hasBody := false, urlScheme := "https",
            host := "example.com",
            urlString := "https://example.com/v1/locations?query=Bern",
            headers := [], ctx := .background } :=
  ⟨rfl, rfl⟩

/-- C3 (counterexample): the quoted wire value `"nullx"` is neither the
literal null token nor empty and does not match the date layout, yet the
codec decodes it to the absent (zero) value with no error, because the
code tests `strings.Contains(i, "null")`. -/
theorem C3_contains_null_counterexample :
    isoDateUnmarshalJSON "\"nullx\"" = .ok zeroGoTime ∧
    "\"nullx\"" ≠ "null" ∧
    ("\"nullx\"" : String).length ≠ 0 ∧
    (goParseIso8601 (goTrimQuotes "\"nullx\"")).isOk = false :=
  ⟨rfl, by decide, by decide, rfl⟩

/-- C3 (amended): a wire value containing the substring `null` (the
literal null token included) or an empty input decodes to the absent
(zero) value with no error; any other wire value has its double quotes
trimmed and is parsed with the layout `2006-01-02T15:04:05Z0700`
(`YYYY-MM-DDTHH:MM:SSZHHMM`, offset without colon): a match decodes to the
corresponding instant, any other shape fails with the parse error. -/
theorem C3_codec_behaviour (raw : String) :
    (goContains raw "null" = true ∨ raw.length = 0 →
      isoDateUnmarshalJSON raw = .ok zeroGoTime) ∧
    (goContains raw "null" = false → raw.length ≠ 0 →
      (∀ t, goParseIso8601 (goTrimQuotes raw) = .ok t →
        isoDateUnmarshalJSON raw = .ok t) ∧
      (∀ e, goParseIso8601 (goTrimQuotes raw) = .error e →
        isoDateUnmarshalJSON raw = .error e)) := by
  constructor
  · intro h
    unfold isoDateUnmarshalJSON
    rcases h with h | h
    · rw [if_pos (Or.inl h)]
    · rw [if_pos (Or.inr h)]
  · intro hc hl
    have hcond : ¬(goContains raw "null" = true ∨ raw.length = 0) := by
      simp [hc, hl]
    constructor
    · intro t ht
      unfold isoDateUnmarshalJSON
      rw [if_neg hcond, ht]
    · intro e he
      unfold isoDateUnmarshalJSON
      rw [if_neg hcond, he]

/-- C3 (witness): a pattern-matching quoted string decodes to its instant;
the hypotheses are discharged by evaluation. -/
theorem C3_codec_witness :
    isoDateUnmarshalJSON "\"2020-01-02T03:04:05+0100\"" =
      .ok { year := 2020, month := 1, day := 2, hour := 3, minute := 4,
            second := 5, offsetMin := 60 } :=
  ((C3_codec_behaviour "\"2020-01-02T03:04:05+0100\"").2 rfl (by decide)).1
    _ rfl

/-- String append is associative (via the underlying character lists). -/
theorem strAppend_assoc (a b c : String) : a ++ b ++ c = a ++ (b ++ c) := by
  apply String.ext
  simp [String.data_append, List.append_assoc]

/-- The portion of the stationboard query path after the station/id key,
defined without reference to `isId`: everything from the `=` before the
escaped name through limit, type, datetime and the transportations list. -/
def stbRest (name : String) (opts : StbOpts) : Except GoErr String :=
  match convListParam (convSlice opts.transportations) "transportations" with
  | .error e => .error e
  | .ok transportations =>
    let directionType := if opts.arrival then "arrival" else "departure"
    match StationboardService.formatDate opts.dateTime with
    | .error e => .error (.wrap "failed to build url path" e)
    | .ok date =>
      .ok ("=" ++ pathEscape name ++ "&limit=" ++ toString opts.limit ++
        "&type=" ++ pathEscape directionType ++ "&datetime=" ++ pathEscape date ++
        transportations)

/-- C10: for a non-empty station name, the stationboard URL builder emits
the query key `id` exactly when the name is longer than 5 bytes and
`strconv.Atoi` accepts it, and `station` otherwise; the remainder of the
path (`stbRest`: escaped name, limit, type, datetime, transportations) is
defined without reference to that choice, so it is unaffected by it. -/
theorem C10_station_key (name : String) (opts : StbOpts) (hname : name ≠ "") :
    StationboardService.buildUrlPath name opts =
      Except.map
        (fun rest => "stationboard?" ++ (if isId name then "id" else "station") ++ rest)
        (stbRest name opts) ∧
    (isId name = true ↔ ((strBytes name).length > 5 ∧ goAtoiOk name = true)) := by
  constructor
  · have hlen : ¬ name.length = 0 := fun h => hname ((strLen_zero_iff name).mp h)
    unfold StationboardService.buildUrlPath stbRest
    rw [if_neg hlen]
    cases convListParam (convSlice opts.transportations) "transportations" with
    | error e => rfl
    | ok tr =>
      cases StationboardService.formatDate opts.dateTime with
      | error e => rfl
      | ok date =>
        simp only [Except.map, strAppend_assoc]
  · simp [isId, Bool.and_eq_true, decide_eq_true_iff]

/-- Stationboard options fixture: a tram filter, mid-2020 date, departure
direction, limit 15. -/
def exampleStbOpts : StbOpts :=
  { transportations := ["tram"],
    dateTime := { year := 2020, month := 6, day := 1, hour := 10, minute := 30,
                  second := 0, offsetMin := 0 },
    arrival := false, limit := 15 }

/-- C10 (witness): the key theorem applied to the identifier-shaped
station name `8503000`. -/
theorem C10_station_key_witness :
    StationboardService.buildUrlPath "8503000" exampleStbOpts =
      Except.map
        (fun rest =>
          "stationboard?" ++ (if isId "8503000" then "id" else "station") ++ rest)
        (stbRest "8503000" exampleStbOpts) ∧
    (isId "8503000" = true ↔
      ((strBytes "8503000").length > 5 ∧ goAtoiOk "8503000" = true)) :=
  C10_station_key "8503000" exampleStbOpts (by decide)

/-- Facts about one decimal digit rendered as a character. -/
theorem digitChar_facts (k : Nat) (hk : k ≤ 9) :
    isDigitChar (Char.ofNat (48 + k)) = true ∧
    digitVal (Char.ofNat (48 + k)) = k ∧
    (Char.ofNat (48 + k)).toNat = 48 + k := by
  interval_cases k <;> exact ⟨rfl, rfl, rfl⟩

/-- Parsing two digits off a two-digit zero-padded rendering recovers the
number. -/
theorem takeDigits_pad2 (n : Nat) (hn : n ≤ 99) (rest : List Char) :
    takeDigits (pad2L n ++ rest) 2 = some (n, rest) := by
  have h1 := digitChar_facts (n / 10 % 10) (by omega)
  have h2 := digitChar_facts (n % 10) (by omega)
  have hshape : pad2L n ++ rest =
      Char.ofNat (48 + n / 10 % 10) :: Char.ofNat (48 + n % 10) :: rest := rfl
  rw [hshape]
  simp [takeDigits, h1.1, h2.1, h1.2.1, h2.2.1]
  omega

/-- Parsing four digits off a four-digit zero-padded rendering recovers
the number. -/
theorem takeDigits_pad4 (n : Nat) (hn : n ≤ 9999) (rest : List Char) :
    takeDigits (pad4L n ++ rest) 4 = some (n, rest) := by
  have h1 := digitChar_facts (n / 1000 % 10) (by omega)
  have h2 := digitChar_facts (n / 100 % 10) (by omega)
  have h3 := digitChar_facts (n / 10 % 10) (by omega)
  have h4 := digitChar_facts (n % 10) (by omega)
  have hshape : pad4L n ++ rest =
      Char.ofNat (48 + n / 1000 % 10) :: Char.ofNat (48 + n / 100 % 10) ::
      Char.ofNat (48 + n / 10 % 10) :: Char.ofNat (48 + n % 10) :: rest := rfl
  rw [hshape]
  simp [takeDigits, h1.1, h2.1, h3.1, h4.1, h1.2.1, h2.2.1, h3.2.1, h4.2.1]
  omega

/-- Gregorian month lengths never exceed 31. -/
theorem daysInMonth_le (y m : Nat) : daysInMonth y m ≤ 31 := by
  unfold daysInMonth
  split_ifs <;> omega

/-- The layout parser inverts the RFC 3339 body rendering for a zero
offset and in-range fields. -/
theorem parseIsoFields_marshalBody (t : GoTime) (hoff : t.offsetMin = 0)
    (hy : t.year ≤ 9999)
    (hmo1 : 1 ≤ t.month) (hmo2 : t.month ≤ 12)
    (hd1 : 1 ≤ t.day) (hd2 : t.day ≤ daysInMonth t.year t.month)
    (hh : t.hour ≤ 23) (hmi : t.minute ≤ 59) (hs : t.second ≤ 59) :
    parseIsoFields (marshalBodyL t) = some t := by
  cases t with
  | mk y mo d h mi s off =>
    simp only at hoff hy hmo1 hmo2 hd1 hd2 hh hmi hs
    subst hoff
    have hmo99 : mo ≤ 99 := by omega
    have hd99 : d ≤ 99 := by
      have := daysInMonth_le y mo
      omega
    have hh99 : h ≤ 99 := by omega
    have hmi99b : mi ≤ 99 := by omega
    have hs99 : s ≤ 99 := by omega
    unfold marshalBodyL parseIsoFields
    simp [marshalZoneL, List.append_assoc, takeDigits_pad4 y hy,
      takeDigits_pad2 mo hmo99, takeDigits_pad2 d hd99, takeDigits_pad2 h hh99,
      takeDigits_pad2 mi hmi99b, takeDigits_pad2 s hs99, expectChar, parseZone,
      hmo1, hmo2, hd1, hd2, hh, hmi, hs]

/-- Characters of a two-digit rendering are decimal digits. -/
theorem mem_pad2L_bounds (n : Nat) (c : Char) (h : c ∈ pad2L n) :
    48 ≤ c.toNat ∧ c.toNat ≤ 57 := by
  have h1 := digitChar_facts (n / 10 % 10) (by omega)
  have h2 := digitChar_facts (n % 10) (by omega)
  unfold pad2L at h
  obtain h | h := List.mem_cons.mp h
  · rw [h, h1.2.2]; omega
  · obtain h | h := List.mem_cons.mp h
    · rw [h, h2.2.2]; omega
    · exact absurd h (List.not_mem_nil c)

/-- Characters of a four-digit rendering are decimal digits. -/
theorem mem_pad4L_bounds (n : Nat) (c : Char) (h : c ∈ pad4L n) :
    48 ≤ c.toNat ∧ c.toNat ≤ 57 := by
  have h1 := digitChar_facts (n / 1000 % 10) (by omega)
  have h2 := digitChar_facts (n / 100 % 10) (by omega)
  have h3 := digitChar_facts (n / 10 % 10) (by omega)
  have h4 := digitChar_facts (n % 10) (by omega)
  unfold pad4L at h
  obtain h | h := List.mem_cons.mp h
  · rw [h, h1.2.2]; omega
  · obtain h | h := List.mem_cons.mp h
    · rw [h, h2.2.2]; omega
    · obtain h | h := List.mem_cons.mp h
      · rw [h, h3.2.2]; omega
      · obtain h | h := List.mem_cons.mp h
        · rw [h, h4.2.2]; omega
        · exact absurd h (List.not_mem_nil c)

/-- Zone rendering characters sit between `+` (43) and `Z` (90). -/
theorem mem_marshalZoneL_bounds (off : Int) (c : Char) (h : c ∈ marshalZoneL off) :
    43 ≤ c.toNat ∧ c.toNat < 97 := by
  unfold marshalZoneL at h
  split_ifs at h with h0 hneg
  · simp only [List.mem_singleton] at h
    subst h
    decide
  · obtain h | h := List.mem_cons.mp h
    · subst h
      decide
    · simp only [List.mem_append, List.mem_singleton] at h
      rcases h with (h | h) | h
      · have := mem_pad2L_bounds _ _ h
        omega
      · subst h
        decide
      · have := mem_pad2L_bounds _ _ h
        omega
  · obtain h | h := List.mem_cons.mp h
    · subst h
      decide
    · simp only [List.mem_append, List.mem_singleton] at h
      rcases h with (h | h) | h
      · have := mem_pad2L_bounds _ _ h
        omega
      · subst h
        decide
      · have := mem_pad2L_bounds _ _ h
        omega

/-- Every character of the rendered timestamp body has a code point in
`[43, 97)` — in particular none of `n`, `u`, `l` (and no double quote). -/
theorem mem_marshalBody_bounds (t : GoTime) (c : Char) (h : c ∈ marshalBodyL t) :
    43 ≤ c.toNat ∧ c.toNat < 97 := by
  unfold marshalBodyL at h
  simp only [List.mem_append, List.mem_singleton] at h
  rcases h with ((((((((((h | h) | h) | h) | h) | h) | h) | h) | h) | h) | h) | h <;>
    first
      | (obtain ⟨hlo, hhi⟩ := mem_pad4L_bounds _ _ h; omega)
      | (obtain ⟨hlo, hhi⟩ := mem_pad2L_bounds _ _ h; omega)
      | (subst h; decide)
      | (obtain ⟨hlo, hhi⟩ := mem_marshalZoneL_bounds _ _ h; omega)

/-- A substring occurrence puts the substring's first character in the
searched list. -/
theorem mem_of_containsSub (l : List Char) (c : Char) (cs : List Char)
    (h : containsSub l (c :: cs) = true) : c ∈ l := by
  induction l with
  | nil =>
    rw [containsSub] at h
    simp [leadsWith] at h
  | cons x rest ih =>
    rw [containsSub] at h
    by_cases hlw : leadsWith (x :: rest) (c :: cs) = true
    · rw [leadsWith] at hlw
      have hx : x = c := of_decide_eq_true (Bool.and_elim_left hlw)
      rw [hx]
      exact List.mem_cons_self c rest
    · rw [if_neg hlw] at h
      exact List.mem_cons_of_mem x (ih h)

/-- Dropping-while leaves a list whose elements all refute the predicate
unchanged. -/
theorem dropWhile_eq_self_of (p : Char → Bool) (l : List Char)
    (h : ∀ x ∈ l, p x = false) : l.dropWhile p = l := by
  cases l with
  | nil => rfl
  | cons x xs =>
    rw [List.dropWhile_cons_of_neg]
    simp [h x (List.mem_cons_self x xs)]

/-- The rendered timestamp never contains the substring `null`. -/
theorem goContains_marshal_null (t : GoTime) :
    goContains (goMarshalTime t) "null" = false := by
  cases hb : goContains (goMarshalTime t) "null" with
  | false => rfl
  | true =>
    exfalso
    unfold goContains at hb
    have hdata : ("null" : String).data = 'n' :: ['u', 'l', 'l'] := rfl
    rw [hdata] at hb
    have hmem : 'n' ∈ (goMarshalTime t).data := mem_of_containsSub _ _ _ hb
    have hdata2 : (goMarshalTime t).data = '"' :: (marshalBodyL t ++ ['"']) := rfl
    rw [hdata2] at hmem
    obtain h | h := List.mem_cons.mp hmem
    · exact absurd h (by decide)
    · obtain h | h := List.mem_append.mp h
      · have := mem_marshalBody_bounds t _ h
        have hn : ('n').toNat = 110 := rfl
        omega
      · simp only [List.mem_singleton] at h
        exact absurd h (by decide)

/-- The rendered timestamp is never the empty wire value. -/
theorem goMarshalTime_length_ne (t : GoTime) : (goMarshalTime t).length ≠ 0 := by
  unfold goMarshalTime
  simp [String.length]

/-- Quote-trimming the rendered timestamp yields exactly its body. -/
theorem goTrimQuotes_marshal (t : GoTime) :
    goTrimQuotes (goMarshalTime t) = ⟨marshalBodyL t⟩ := by
  have hb := mem_marshalBody_bounds t
  have hbq : ∀ x ∈ marshalBodyL t, decide (x = '"') = false := by
    intro x hx
    apply decide_eq_false
    intro he
    have := hb x hx
    rw [he] at this
    have h34 : ('"').toNat = 34 := rfl
    omega
  obtain ⟨x, xs, hcons⟩ : ∃ x xs, marshalBodyL t = x :: xs := by
    unfold marshalBodyL pad4L
    exact ⟨_, _, rfl⟩
  unfold goTrimQuotes goMarshalTime
  have hdata : (String.mk ('"' :: (marshalBodyL t ++ ['"']))).data =
      '"' :: (marshalBodyL t ++ ['"']) := rfl
  rw [hdata]
  rw [List.dropWhile_cons_of_pos (by decide)]
  rw [hcons, List.cons_append, List.dropWhile_cons_of_neg (by
    simp [hbq x (by rw [hcons]; exact List.mem_cons_self x xs)])]
  rw [← List.cons_append, ← hcons]
  rw [List.reverse_append, List.reverse_singleton, List.singleton_append]
  rw [List.dropWhile_cons_of_pos (by decide)]
  rw [dropWhile_eq_self_of _ _ (by
    intro y hy
    exact hbq y (List.mem_reverse.mp hy))]
  rw [List.reverse_reverse]

/-- A present timestamp carrying a +01:00 zone offset. -/
def exampleOffsetTime : GoTime :=
  { year := 2020, month := 1, day := 2, hour := 3, minute := 4, second := 5,
    offsetMin := 60 }

/-- C9 (counterexample): encoding a present instant with a +01:00 offset
produces an RFC 3339 colon offset, which the no-colon layout parser then
rejects — the round trip yields a decode error, not the original
instant. -/
theorem C9_offset_roundtrip_fails :
    (isoDateUnmarshalJSON (goMarshalTime exampleOffsetTime)).isOk = false ∧
    exampleOffsetTime ≠ zeroGoTime :=
  ⟨rfl, by decide⟩

/-- C9 (amended): for every timestamp with a zero zone offset (encoded
with the `Z` suffix) and in-range civil fields — present values included —
encoding to the JSON wire form and decoding that wire form yields the
original instant; with a non-zero offset the encoding carries a colon in
the offset and the decode fails. -/
theorem C9_roundtrip_utc (t : GoTime) (hoff : t.offsetMin = 0)
    (hy : t.year ≤ 9999)
    (hmo1 : 1 ≤ t.month) (hmo2 : t.month ≤ 12)
    (hd1 : 1 ≤ t.day) (hd2 : t.day ≤ daysInMonth t.year t.month)
    (hh : t.hour ≤ 23) (hmi : t.minute ≤ 59) (hs : t.second ≤ 59) :
    isoDateUnmarshalJSON (goMarshalTime t) = .ok t := by
  unfold isoDateUnmarshalJSON
  rw [if_neg (by
    rw [goContains_marshal_null t]
    simp [goMarshalTime_length_ne t])]
  rw [goTrimQuotes_marshal t]
  unfold goParseIso8601
  have hdata : (String.mk (marshalBodyL t)).data = marshalBodyL t := rfl
  rw [hdata, parseIsoFields_marshalBody t hoff hy hmo1 hmo2 hd1 hd2 hh hmi hs]

/-- C9 (witness): the amended round trip at a concrete UTC instant. -/
theorem C9_roundtrip_witness :
    isoDateUnmarshalJSON (goMarshalTime
      { year := 2020, month := 6, day := 23, hour := 18, minute := 52,
        second := 0, offsetMin := 0 }) =
      .ok { year := 2020, month := 6, day := 23, hour := 18, minute := 52,
            second := 0, offsetMin := 0 } :=
  C9_roundtrip_utc _ rfl (by decide) (by decide) (by decide) (by decide)
    (by decide) (by decide) (by decide) (by decide)
